import Mathlib

/-!
Verification of the `nmea_multi/rpi` tools against their design spec.

The development shallowly embeds the three programs:

* `nmea_0183_read.c`  — reader with GPIO-mediated mode-switch state machine;
* `nmea_split.c`      — channel demultiplexer with named-pipe lifecycle;
* `nmea_0183_config.c`— configuration tool (argument parsing only is needed).

External effects (fgets records, GPIO polls, open/write/close results, the
filesystem) are passed in explicitly as oracles, and each program is modelled
as a pure function producing a trace of observable events plus an exit
status.  Line numbers in comments refer to the corresponding C sources.
-/

namespace NmeaRead

/-- Observable events of the reader `nmea_0183_read.c` main loop
(lines 165-199): `out s` is `fputs(s, stdout); fflush(stdout)`;
`closeIn` is `close_tty_file(in_fp)` on entering configuration mode;
`reopenIn` is the `open_tty_file` call after the GPIO line is released;
`fatal` is an error print to stderr followed by `exit(1)`. -/
inductive REv where
  | out (s : List Char)
  | closeIn
  | reopenIn
  | fatal (msg : String)
deriving DecidableEq, Repr

/-- One GPIO poll is one `gpiod_chip_get_line` + `gpiod_line_is_used` pair:
`none` models `gpiod_chip_get_line` returning NULL (fatal), `some b` a
successful poll with used-status `b`.  The oracle is a finite list; past its
end a poll is treated as successful and released (`some false`), which only
matters for runs longer than the supplied oracle. -/
abbrev GpioPolls := List (Option Bool)

/-- The inner polling loop of `nmea_0183_read.c` lines 181-190: having just
observed the line claimed, repeatedly sleep and re-resolve the line until a
poll reports it no longer used.  Returns the remaining oracle after the
first released poll, or `none` if `gpiod_chip_get_line` fails mid-poll
(lines 186-189, fatal). -/
def pollWait : GpioPolls → Option GpioPolls
  | [] => some []
  | none :: _ => none
  | some true :: rest => pollWait rest
  | some false :: rest => some rest

/-- The reader main loop, `nmea_0183_read.c` lines 165-200, in the case
where GPIO monitoring is enabled (`gpio != -1`, `chip` open).  The first
argument is the sequence of records `fgets` returns; the second is the GPIO
poll oracle.  Per iteration the code first re-resolves the GPIO line (line
167, one poll): a failed resolve is fatal (lines 169-172); a claimed line
discards the record just read, closes the input, polls until released and
reopens (lines 174-195); a released line is forwarded and flushed
(lines 196-199).  End of input (`fgets` returning NULL) ends the loop and
the process returns 0. -/
def readerLoop : List (List Char) → GpioPolls → List REv
  | [], _ => []
  | s :: ls, gs =>
    match gs with
    | [] => REv.out s :: readerLoop ls []
    | none :: _ => [REv.fatal "Error opening GPIO line"]
    | some true :: gs₁ =>
      match pollWait gs₁ with
      | none => [REv.closeIn, REv.fatal "Error opening GPIO line"]
      | some gs₂ => REv.closeIn :: REv.reopenIn :: readerLoop ls gs₂
    | some false :: gs₁ => REv.out s :: readerLoop ls gs₁

/-- The reader main loop including the `-g -` configuration
(`gpioDisabled = true`, i.e. `gpio == -1`), where `chip` is never opened and
stays NULL (`nmea_0183_read.c` lines 60, 154-161).  Even in that mode the
loop body calls `gpiod_chip_get_line(chip, gpio)` on the NULL chip before
the `gpio != -1` guard is consulted (line 167): libgpiod v1 dereferences its
chip argument unconditionally, so no usable line can result; this is
modelled as the call yielding NULL, upon which lines 169-172 print
"Error opening GPIO line" and `exit(1)`.  So with at least one input record
the run is fatal before anything is forwarded. -/
def readerMain (gpioDisabled : Bool) (lines : List (List Char)) (gs : GpioPolls) : List REv :=
  if gpioDisabled then
    match lines with
    | [] => []
    | _ :: _ => [REv.fatal "Error opening GPIO line"]
  else readerLoop lines gs

end NmeaRead

namespace NmeaSplit

/-- Routing-table entry for one channel, mirroring the `FIFO_IDX_*` values of
`nmea_split.c` lines 37-39: `no` is `FIFO_IDX_NO` (-1, unassigned),
`toStdout` is `FIFO_IDX_STDOUT` (-2), `toFifo i` is an index `i ≥ 0` into
the fifo array. -/
inductive FifoIdx where
  | no
  | toStdout
  | toFifo (i : Nat)
deriving DecidableEq, Repr

/-- Parsed configuration: `fifoIndices` is the `fifo_indices[8]` table
(indexed by channel digit minus '1'), `fifoNames` the declared fifo paths
in order (`fifos[i].name`, `fifo_count = fifoNames.length`), `fifoFound`
the `fifo_found` flag. -/
structure ArgState where
  fifoIndices : List FifoIdx
  fifoNames : List String
  fifoFound : Bool
deriving DecidableEq, Repr

/-- Initial parser state, `nmea_split.c` lines 84-94. -/
def initArgs : ArgState := ⟨List.replicate 8 FifoIdx.no, [], false⟩

/-- Channel digit to table index, `argv[p+1][i] - '1'`. -/
def chIdx (c : Char) : Nat := c.toNat - 49

/-- The digit loop of one `-f` option, `nmea_split.c` lines 125-136: each
character must lie in `'1'..'0'+FIFO_CNT` and its channel must still be
unassigned; it is then bound to `idx`.  Errors print a message and exit via
`usage()`. -/
def assignChans (idx : FifoIdx) : ArgState → List Char → Except String ArgState
  | st, [] => Except.ok st
  | st, c :: cs =>
    if c < '1' ∨ '8' < c then
      Except.error ("Wrong channel number: " ++ c.toString)
    else if st.fifoIndices.getD (chIdx c) FifoIdx.no ≠ FifoIdx.no then
      Except.error ("Fifo for channel " ++ c.toString ++ " given twice.")
    else
      assignChans idx { st with fifoIndices := st.fifoIndices.set (chIdx c) idx } cs

/-- The argument loop of `nmea_split.c` lines 96-164.  `Except.error`
models the message printed to stderr followed by `usage()` (usage text and
`exit(1)`).  For one `-f`: missing arguments are checked first (lines
103-111); a `-` target means stdout, and a second stdout target is detected
by scanning the table for an entry already bound to stdout (lines 113-123);
then the digit loop runs (lines 125-136); for a fifo target a duplicate
path is rejected and the name recorded (lines 138-149).  After the loop a
run without any `-f` is rejected (lines 161-164). -/
def parseArgs : ArgState → List String → Except String ArgState
  | st, [] =>
    if st.fifoFound then Except.ok st else Except.error "No -f option found."
  | st, a :: rest =>
    if a = "-h" then Except.error "usage requested"
    else if a = "-f" then
      match rest with
      | [] => Except.error "No fifo channels given."
      | [_] => Except.error "No fifo file given."
      | chans :: tgt :: rest₂ =>
        let idx : FifoIdx := if tgt ≠ "-" then FifoIdx.toFifo st.fifoNames.length
                             else FifoIdx.toStdout
        if tgt = "-" ∧ st.fifoIndices.contains FifoIdx.toStdout then
          Except.error "stdout given as output twice."
        else
          match assignChans idx st chans.toList with
          | Except.error e => Except.error e
          | Except.ok st₂ =>
            if tgt ≠ "-" then
              if st₂.fifoNames.contains tgt then
                Except.error ("Fifo name " ++ tgt ++ " given twice.")
              else
                parseArgs { st₂ with fifoNames := st₂.fifoNames ++ [tgt],
                                     fifoFound := true } rest₂
            else
              parseArgs { st₂ with fifoFound := true } rest₂
    else Except.error ("Unknown option: " ++ a)

/-- What the filesystem holds at a path: a fifo, or some other kind of
entry. -/
inductive FsType where
  | fifo
  | other
deriving DecidableEq, Repr

/-- Filesystem model: an association list from paths to entry types. -/
abbrev Fs := List (String × FsType)

def fsGet (fs : Fs) (n : String) : Option FsType :=
  (fs.find? (fun e => e.1 == n)).map (fun e => e.2)

def fsRemove (fs : Fs) (n : String) : Fs :=
  fs.filter (fun e => e.1 != n)

/-- Output target as seen by the processing loop: the process's stdout or
the `i`-th created fifo. -/
inductive Target where
  | primary
  | fifo (i : Nat)
deriving DecidableEq, Repr

/-- Observable events of `nmea_split.c`: `unlinkF` an `unlink(2)` call,
`mkfifoF` a `mkfifo(2)` call with its mode argument, `openF` the blocking
`open(name, O_WRONLY)`/`fdopen` pair, `readL` one record returned by
`fgets`, `writeT` an `fputs` to a target carrying the (ignored) success of
the write, `flushT` an `fflush` of a target, `diag` an `fprintf(stderr,..)`
message, `closeF` an `fclose` of a fifo stream. -/
inductive Ev where
  | unlinkF (name : String)
  | mkfifoF (name : String) (mode : Nat)
  | openF (name : String)
  | readL (s : List Char)
  | writeT (t : Target) (data : List Char) (ok : Bool)
  | flushT (t : Target)
  | diag (msg : String)
  | closeF (name : String)
deriving DecidableEq, Repr

/-- One round of the fifo-creation loop, `nmea_split.c` lines 167-195, for
one declared path (`fifos[i].name` is never NULL, so the stdout `continue`
at lines 170-173 is dead).  `stat` and the type check: a non-fifo entry at
the path is not removed — control falls through to `mkfifo`, which fails
with EEXIST, printing "Error creating fifo file" and exiting 1 (lines
191-194); an existing fifo is first unlinked (lines 183-189); then a fresh
fifo is created with mode 0666.  Syscalls on the modelled filesystem are
deterministic: `unlink` succeeds on an existing entry, `mkfifo` succeeds
exactly on a free path.  Returns (events, new filesystem, fatal?). -/
def createOne (fs : Fs) (n : String) : List Ev × Fs × Bool :=
  match fsGet fs n with
  | some FsType.other => ([Ev.diag ("Error creating fifo file: " ++ n)], fs, true)
  | some FsType.fifo =>
      ([Ev.unlinkF n, Ev.mkfifoF n 438], (n, FsType.fifo) :: fsRemove fs n, false)
  | none => ([Ev.mkfifoF n 438], (n, FsType.fifo) :: fs, false)

/-- The fifo-creation loop over all declared paths, `nmea_split.c` lines
167-195; stops at the first fatal error (`exit(1)`). -/
def createFifos : Fs → List String → List Ev × Fs × Bool
  | fs, [] => ([], fs, false)
  | fs, n :: ns =>
    match createOne fs n with
    | (evs, fs₁, true) => (evs, fs₁, true)
    | (evs, fs₁, false) =>
      match createFifos fs₁ ns with
      | (evs₂, fs₂, fatal) => (evs ++ evs₂, fs₂, fatal)

/-- The fifo-opening loop, `nmea_split.c` lines 197-221: each fifo is opened
for writing (blocking until a reader attaches); if `open` or `fdopen` fails
the code prints "Error opening fifo", unlinks that one fifo only, and exits
1 (lines 208-220).  `openOk` is the oracle for open/fdopen success. -/
def openFifos (openOk : String → Bool) : Fs → List String → List Ev × Fs × Bool
  | fs, [] => ([], fs, false)
  | fs, n :: ns =>
    if openOk n then
      match openFifos openOk fs ns with
      | (evs, fs₁, fatal) => (Ev.openF n :: evs, fs₁, fatal)
    else
      ([Ev.diag ("Error opening fifo: " ++ n), Ev.unlinkF n], fsRemove fs n, true)

/-- Target bound to a routing-table entry, if any. -/
def targetOf : FifoIdx → Option Target
  | FifoIdx.no => none
  | FifoIdx.toStdout => some Target.primary
  | FifoIdx.toFifo i => some (Target.fifo i)

/-- The first character of a record, `s[0]`; an empty record reads the NUL
terminator (`fgets` in fact never returns an empty string). -/
def headC (s : List Char) : Char := s.headD (Char.ofNat 0)

/-- The body of the processing loop for one `fgets` record, `nmea_split.c`
lines 224-238: `s[0]` outside `'1'..'0'+FIFO_CNT` logs a diagnostic; an
unassigned channel does nothing; an assigned channel gets `s + 1` written
to its target followed by a flush.  `w` supplies the result of each
`fputs` in order; the code never inspects it (line 231/235 discard the
return value), so it is merely recorded in the event. -/
def procLine (tbl : List FifoIdx) (s : List Char) (w : List Bool) :
    List Ev × List Bool :=
  if headC s < '1' ∨ '8' < headC s then
    ([Ev.diag ("Wrong channel number in input: " ++ String.mk s)], w)
  else
    match tbl.getD (chIdx (headC s)) FifoIdx.no with
    | FifoIdx.no => ([], w)
    | FifoIdx.toStdout =>
        ([Ev.writeT Target.primary (s.drop 1) (w.headD true),
          Ev.flushT Target.primary], w.drop 1)
    | FifoIdx.toFifo i =>
        ([Ev.writeT (Target.fifo i) (s.drop 1) (w.headD true),
          Ev.flushT (Target.fifo i)], w.drop 1)

/-- The processing loop, `nmea_split.c` lines 223-239: read records until
`fgets` returns NULL, handling each with `procLine`.  No branch of the body
can leave the loop. -/
def procLines (tbl : List FifoIdx) : List (List Char) → List Bool → List Ev
  | [], _ => []
  | s :: ls, w =>
    match procLine tbl s w with
    | (evs, w₂) => Ev.readL s :: (evs ++ procLines tbl ls w₂)

/-- The shutdown loop, `nmea_split.c` lines 241-252: for each fifo,
`fclose` then — only if the close succeeded, because `||` short-circuits —
`unlink`; if either fails, "Error closing fifo" is reported and the loop
continues; the function still returns 0.  `closeOk` and `unlinkOk` are the
oracles for the two calls. -/
def cleanupOne (closeOk unlinkOk : String → Bool) (fs : Fs) (n : String) :
    List Ev × Fs :=
  if closeOk n then
    if unlinkOk n then ([Ev.closeF n, Ev.unlinkF n], fsRemove fs n)
    else ([Ev.closeF n, Ev.unlinkF n, Ev.diag ("Error closing fifo: " ++ n)], fs)
  else ([Ev.closeF n, Ev.diag ("Error closing fifo: " ++ n)], fs)

def cleanupFifos (closeOk unlinkOk : String → Bool) : Fs → List String → List Ev × Fs
  | fs, [] => ([], fs)
  | fs, n :: ns =>
    match cleanupOne closeOk unlinkOk fs n with
    | (evs, fs₁) =>
      match cleanupFifos closeOk unlinkOk fs₁ ns with
      | (evs₂, fs₂) => (evs ++ evs₂, fs₂)

/-- Result of a run of `nmea_split`: the event trace, the exit status, and
the final filesystem. -/
structure RunResult where
  trace : List Ev
  exit : Nat
  fs : Fs
deriving DecidableEq, Repr

/-- A complete run of `nmea_split.c` `main`: argument parsing (usage errors
exit 1 before anything touches the filesystem), fifo creation, fifo
opening, the processing loop over the stdin records `lines`, and the
shutdown loop, which never changes the already-determined exit status 0. -/
def splitMain (fs₀ : Fs) (args : List String) (lines : List (List Char))
    (openOk : String → Bool) (w : List Bool) (closeOk unlinkOk : String → Bool) :
    RunResult :=
  match parseArgs initArgs args with
  | Except.error e => ⟨[Ev.diag e], 1, fs₀⟩
  | Except.ok st =>
    match createFifos fs₀ st.fifoNames with
    | (evs, fs₁, true) => ⟨evs, 1, fs₁⟩
    | (evs, fs₁, false) =>
      match openFifos openOk fs₁ st.fifoNames with
      | (evs₂, fs₂, true) => ⟨evs ++ evs₂, 1, fs₂⟩
      | (evs₂, fs₂, false) =>
        match cleanupFifos closeOk unlinkOk fs₂ st.fifoNames with
        | (evs₃, fs₃) =>
          ⟨evs ++ evs₂ ++ procLines st.fifoIndices lines w ++ evs₃, 0, fs₃⟩

/-- Record-reading events, used to state that a phase consumes no input. -/
def isRead : Ev → Bool
  | Ev.readL _ => true
  | _ => false

end NmeaSplit

namespace NmeaConfig

/-- Value of a digit string, as accumulated by `sscanf` with `%d`. -/
def digitsVal (cs : List Char) : Nat :=
  cs.foldl (fun a c => 10 * a + (c.toNat - 48)) 0

/-- Model of `sscanf(s, "%d%n", &v, &n) == 1 && s[n] == '\0'` as used by
`nmea_0183_config.c` lines 91 and 131: an optional sign followed by at
least one digit and nothing else.  (`sscanf` would additionally skip
leading whitespace; no claim depends on that.) -/
def parseIntArg (cs : List Char) : Option Int :=
  match cs with
  | '-' :: rest =>
    if rest ≠ [] ∧ rest.all (fun c => c.isDigit) then
      some (-(Int.ofNat (digitsVal rest)))
    else none
  | '+' :: rest =>
    if rest ≠ [] ∧ rest.all (fun c => c.isDigit) then some (Int.ofNat (digitsVal rest))
    else none
  | _ =>
    if cs ≠ [] ∧ cs.all (fun c => c.isDigit) then some (Int.ofNat (digitsVal cs))
    else none

/-- Parser state of `nmea_0183_config.c` `main`, lines 62-67: `baud = -1`
(unset), `gpio = -2` (unset, `-1` meaning no gpio), and — crucially —
`input_name` already pre-assigned to "/dev/ttyAMA0" at its declaration
(line 65), before the argument loop runs. -/
structure CState where
  baud : Int
  gpio : Int
  inputName : Option String
deriving DecidableEq, Repr

/-- Initial state of the configuration tool's argument parser. -/
def cInit : CState := ⟨-1, -2, some "/dev/ttyAMA0"⟩

/-- The argument loop of `nmea_0183_config.c` lines 74-142.  `Except.error`
models the diagnostic printed to stderr followed by `usage()` (usage text
and `exit(1)`).  The `-i` branch (lines 103-116) first tests
`input_name != NULL`; since `input_name` starts at "/dev/ttyAMA0" and
nothing ever resets it to NULL, that test can never fail, so the
device-assignment statement at line 114 is unreachable. -/
def parseC : CState → List String → Except String CState
  | st, [] => Except.ok st
  | st, a :: rest =>
    if a = "-h" then Except.error "usage requested"
    else if a = "-b" then
      if st.baud ≠ -1 then Except.error "Baud rate given twice"
      else
        match rest with
        | [] => Except.error "No baud rate given"
        | v :: rest₂ =>
          match parseIntArg v.toList with
          | none => Except.error "Wrong baud rate"
          | some b =>
            if b ≠ 4800 ∧ b ≠ 38400 ∧ b ≠ 115200 then Except.error "Wrong baud rate"
            else parseC { st with baud := b } rest₂
    else if a = "-i" then
      if st.inputName ≠ none then Except.error "Input device given twice"
      else
        match rest with
        | [] => Except.error "No input device given"
        | v :: rest₂ => parseC { st with inputName := some v } rest₂
    else if a = "-g" then
      if st.gpio ≠ -2 then Except.error "GPIO given twice"
      else
        match rest with
        | [] => Except.error "No GPIO given"
        | v :: rest₂ =>
          if v = "-" then parseC { st with gpio := -1 } rest₂
          else
            match parseIntArg v.toList with
            | none => Except.error "Wrong GPIO"
            | some g =>
              if g < 0 then Except.error "Wrong GPIO"
              else parseC { st with gpio := g } rest₂
    else Except.error ("Unknown option: " ++ a)

end NmeaConfig

namespace NmeaRead

theorem pollWait_all_claimed (polls rest : GpioPolls)
    (h : ∀ r ∈ polls, r = some true) :
    pollWait (polls ++ some false :: rest) = some rest := by
  induction polls with
  | nil => rfl
  | cons p ps ih =>
    have hp : p = some true := h p (List.mem_cons_self ..)
    subst hp
    simpa [pollWait] using ih fun r hr => h r (List.mem_cons_of_mem _ hr)

theorem readerLoop_all_released (ls : List (List Char)) (gs : GpioPolls)
    (h : ∀ r ∈ gs, r = some false) :
    readerLoop ls gs = ls.map REv.out := by
  induction ls generalizing gs with
  | nil => simp [readerLoop]
  | cons s ls ih =>
    match gs with
    | [] => simp [readerLoop, ih [] (by simp)]
    | r :: gs₁ =>
      have hr : r = some false := h r (List.mem_cons_self ..)
      subst hr
      simp [readerLoop, ih gs₁ fun r hr => h r (List.mem_cons_of_mem _ hr)]

/-- Claim C1: with GPIO monitoring enabled, (a) whenever the per-line check
reports the watched line claimed, the record just read is discarded (never
forwarded), the input is closed, and — for the whole interval in which
every poll reports the line claimed — no output event at all is emitted,
however many further records the serial source may carry; once a poll
reports the line released the input is reopened and the loop continues with
the remaining records; (b) once released, as long as every subsequent
per-line check reports the line released, every record read is forwarded. -/
theorem reader_suspend_resume :
    (∀ (s : List Char) (ls : List (List Char)) (polls rest : GpioPolls),
      (∀ r ∈ polls, r = some true) →
      readerMain false (s :: ls) (some true :: (polls ++ some false :: rest)) =
        REv.closeIn :: REv.reopenIn :: readerLoop ls rest) ∧
    (∀ (ls : List (List Char)) (gs : GpioPolls),
      (∀ r ∈ gs, r = some false) →
      readerMain false ls gs = ls.map REv.out) := by
  constructor
  · intro s ls polls rest h
    simp [readerMain, readerLoop, pollWait_all_claimed polls rest h]
  · intro ls gs h
    simpa [readerMain] using readerLoop_all_released ls gs h

theorem reader_suspend_resume_witness :
    readerMain false [['a', '\n'], ['b', '\n']]
        (some true :: ([some true, some true] ++ some false :: [some false])) =
      REv.closeIn :: REv.reopenIn :: readerLoop [['b', '\n']] [some false] ∧
    readerMain false [['b', '\n']] [some false] = [['b', '\n']].map REv.out := by
  exact ⟨reader_suspend_resume.1 ['a', '\n'] [['b', '\n']] [some true, some true]
          [some false] (by decide),
        reader_suspend_resume.2 [['b', '\n']] [some false] (by decide)⟩

/-- Claim C3 (code bug): with the "no GPIO" sentinel `-g -` the chip is
never opened, yet the loop body still calls `gpiod_chip_get_line` on the
NULL chip before the `gpio != -1` guard, so the very first record read ends
the process fatally ("Error opening GPIO line", exit 1) instead of being
forwarded to stdout as the spec requires.  Evaluation of the model at the
failing input: one input record, no output, fatal. -/
theorem reader_nogpio_code_bug :
    readerMain true [['a', '\n']] [] = [REv.fatal "Error opening GPIO line"] := by
  rfl

end NmeaRead

namespace NmeaSplit

theorem chIdx_lt_eight {d : Char} (h : d ≤ '8') : chIdx d < 8 := by
  have hv : d.val ≤ UInt32.ofNat 56 := Char.le_def.mp h
  have hn : d.val.toNat ≤ 56 := UInt32.toNat_le_of_le (by decide) hv
  have ht : d.toNat ≤ 56 := hn
  simp only [chIdx]
  omega

theorem createOne_no_read (fs : Fs) (n : String) :
    (createOne fs n).1.filter isRead = [] := by
  unfold createOne
  split <;> rfl

theorem createFifos_no_read (ns : List String) :
    ∀ fs : Fs, ((createFifos fs ns).1.filter isRead) = [] := by
  induction ns with
  | nil => intro fs; rfl
  | cons n ns ih =>
    intro fs
    unfold createFifos
    split
    · next evs fs₁ heq =>
      have h1 := createOne_no_read fs n
      rw [heq] at h1
      exact h1
    · next evs fs₁ heq =>
      split
      next evs₂ fs₂ fatal heq₂ =>
        have h1 := createOne_no_read fs n
        rw [heq] at h1
        have h2 := ih fs₁
        rw [heq₂] at h2
        simpa [List.filter_append] using And.intro h1 h2

theorem openFifos_all_ok (openOk : String → Bool) (ns : List String) :
    ∀ fs : Fs, (∀ n ∈ ns, openOk n = true) →
      openFifos openOk fs ns = (ns.map Ev.openF, fs, false) := by
  induction ns with
  | nil => intro fs _; rfl
  | cons n ns ih =>
    intro fs h
    have hn : openOk n = true := h n (List.mem_cons_self ..)
    simp [openFifos, hn, ih fs fun m hm => h m (List.mem_cons_of_mem _ hm)]

theorem map_openF_no_read (ns : List String) :
    (ns.map Ev.openF).filter isRead = [] := by
  induction ns with
  | nil => rfl
  | cons n ns ih => simp [isRead, ih]

theorem procLine_no_read (tbl : List FifoIdx) (s : List Char) (w : List Bool) :
    (procLine tbl s w).1.filter isRead = [] := by
  unfold procLine
  split
  · rfl
  · split <;> rfl

theorem procLines_filter_read (tbl : List FifoIdx) (ls : List (List Char)) :
    ∀ w : List Bool, (procLines tbl ls w).filter isRead = ls.map Ev.readL := by
  induction ls with
  | nil => intro w; rfl
  | cons s ls ih =>
    intro w
    unfold procLines
    split
    next evs w₂ heq =>
      have h1 := procLine_no_read tbl s w
      rw [heq] at h1
      simp [List.filter_append, isRead, h1, ih]

theorem cleanupOne_no_read (closeOk unlinkOk : String → Bool) (fs : Fs) (n : String) :
    (cleanupOne closeOk unlinkOk fs n).1.filter isRead = [] := by
  unfold cleanupOne
  split
  · split <;> rfl
  · rfl

theorem cleanupFifos_no_read (closeOk unlinkOk : String → Bool) (ns : List String) :
    ∀ fs : Fs, ((cleanupFifos closeOk unlinkOk fs ns).1.filter isRead) = [] := by
  induction ns with
  | nil => intro fs; rfl
  | cons n ns ih =>
    intro fs
    unfold cleanupFifos
    split
    next evs fs₁ heq =>
      split
      next evs₂ fs₂ heq₂ =>
        have h1 := cleanupOne_no_read closeOk unlinkOk fs n
        rw [heq] at h1
        have h2 := ih fs₁
        rw [heq₂] at h2
        simpa [List.filter_append] using And.intro h1 h2

theorem cleanupOne_mem (closeOk unlinkOk : String → Bool) (fs : Fs) (n : String) :
    Ev.closeF n ∈ (cleanupOne closeOk unlinkOk fs n).1 ∧
    (closeOk n = true → Ev.unlinkF n ∈ (cleanupOne closeOk unlinkOk fs n).1) ∧
    (closeOk n = false →
      Ev.diag ("Error closing fifo: " ++ n) ∈ (cleanupOne closeOk unlinkOk fs n).1) := by
  unfold cleanupOne
  by_cases hc : closeOk n = true
  · by_cases hu : unlinkOk n = true
    · simp [hc, hu]
    · simp [hc, hu]
  · simp [hc]

theorem cleanupFifos_mem (closeOk unlinkOk : String → Bool) (ns : List String) :
    ∀ (fs : Fs) (n : String), n ∈ ns →
      Ev.closeF n ∈ (cleanupFifos closeOk unlinkOk fs ns).1 ∧
      (closeOk n = true → Ev.unlinkF n ∈ (cleanupFifos closeOk unlinkOk fs ns).1) ∧
      (closeOk n = false →
        Ev.diag ("Error closing fifo: " ++ n) ∈
          (cleanupFifos closeOk unlinkOk fs ns).1) := by
  induction ns with
  | nil => intro fs n hn; cases hn
  | cons m ms ih =>
    intro fs n hn
    unfold cleanupFifos
    split
    next evs fs₁ heq =>
      split
      next evs₂ fs₂ heq₂ =>
        rcases List.mem_cons.mp hn with rfl | hn'
        · obtain ⟨h1, h2, h3⟩ := cleanupOne_mem closeOk unlinkOk fs n
          rw [heq] at h1 h2 h3
          exact ⟨List.mem_append_left _ h1, fun hc => List.mem_append_left _ (h2 hc),
                 fun hc => List.mem_append_left _ (h3 hc)⟩
        · obtain ⟨h1, h2, h3⟩ := ih fs₁ n hn'
          rw [heq₂] at h1 h2 h3
          exact ⟨List.mem_append_right _ h1, fun hc => List.mem_append_right _ (h2 hc),
                 fun hc => List.mem_append_right _ (h3 hc)⟩

theorem assignChans_mem_conflict {idx : FifoIdx} :
    ∀ (cs : List Char) (st : ArgState) (c : Char), c ∈ cs →
      st.fifoIndices.getD (chIdx c) FifoIdx.no ≠ FifoIdx.no →
      ∀ st', assignChans idx st cs ≠ Except.ok st' := by
  intro cs
  induction cs with
  | nil => intro st c hc; cases hc
  | cons d ds ih =>
    intro st c hc hne st' hok
    unfold assignChans at hok
    by_cases hd : d < '1' ∨ '8' < d
    · rw [if_pos hd] at hok
      exact Except.noConfusion hok
    · rw [if_neg hd] at hok
      by_cases hdup : st.fifoIndices.getD (chIdx d) FifoIdx.no = FifoIdx.no
      · rw [if_neg (not_not_intro hdup)] at hok
        rcases List.mem_cons.mp hc with rfl | hc'
        · exact hne hdup
        · by_cases hij : chIdx d = chIdx c
          · rw [hij] at hdup
            exact hne hdup
          · have hpres : (st.fifoIndices.set (chIdx d) idx).getD (chIdx c) FifoIdx.no ≠
                FifoIdx.no := by
              rw [List.getD_eq_getElem?_getD, List.getElem?_set_ne hij,
                  ← List.getD_eq_getElem?_getD]
              exact hne
            exact ih _ c hc' hpres st' hok
      · rw [if_pos hdup] at hok
        exact Except.noConfusion hok

theorem assignChans_ok {idx : FifoIdx} (hidx : idx ≠ FifoIdx.no) :
    ∀ (cs : List Char) (st st' : ArgState), st.fifoIndices.length = 8 →
      assignChans idx st cs = Except.ok st' →
      (∀ c ∈ cs, '1' ≤ c ∧ c ≤ '8') ∧ cs.Nodup := by
  intro cs
  induction cs with
  | nil => intro st st' _ _; exact ⟨by simp, List.nodup_nil⟩
  | cons d ds ih =>
    intro st st' hlen h
    unfold assignChans at h
    by_cases hd : d < '1' ∨ '8' < d
    · rw [if_pos hd] at h
      exact Except.noConfusion h
    · rw [if_neg hd] at h
      by_cases hdup : st.fifoIndices.getD (chIdx d) FifoIdx.no = FifoIdx.no
      · rw [if_neg (not_not_intro hdup)] at h
        push_neg at hd
        obtain ⟨hrange, hnd⟩ := ih _ st' (by simpa using hlen) h
        refine ⟨?_, List.nodup_cons.mpr ⟨?_, hnd⟩⟩
        · intro c hc
          rcases List.mem_cons.mp hc with rfl | hc'
          · exact ⟨hd.1, hd.2⟩
          · exact hrange c hc'
        · intro hmem
          have hin : chIdx d < st.fifoIndices.length := by
            rw [hlen]
            exact chIdx_lt_eight hd.2
          have hset : (st.fifoIndices.set (chIdx d) idx).getD (chIdx d) FifoIdx.no ≠
              FifoIdx.no := by
            rw [List.getD_eq_getElem?_getD, List.getElem?_set_self hin]
            simpa using hidx
          exact assignChans_mem_conflict ds _ d hmem hset st' h
      · rw [if_pos hdup] at h
        exact Except.noConfusion h

theorem procLines_cons (tbl : List FifoIdx) (s : List Char) (ls : List (List Char))
    (w : List Bool) :
    procLines tbl (s :: ls) w =
      Ev.readL s :: ((procLine tbl s w).1 ++ procLines tbl ls (procLine tbl s w).2) := by
  rcases heq : procLine tbl s w with ⟨evs, w₂⟩
  simp only [procLines, heq]

theorem splitMain_parse_error (fs₀ : Fs) (args : List String) (lines : List (List Char))
    (openOk : String → Bool) (w : List Bool) (closeOk unlinkOk : String → Bool)
    (e : String) (hp : parseArgs initArgs args = Except.error e) :
    splitMain fs₀ args lines openOk w closeOk unlinkOk = ⟨[Ev.diag e], 1, fs₀⟩ := by
  unfold splitMain
  rw [hp]

theorem splitMain_create_fatal (fs₀ : Fs) (args : List String) (lines : List (List Char))
    (openOk : String → Bool) (w : List Bool) (closeOk unlinkOk : String → Bool)
    (st : ArgState) (hp : parseArgs initArgs args = Except.ok st)
    (hc : (createFifos fs₀ st.fifoNames).2.2 = true) :
    splitMain fs₀ args lines openOk w closeOk unlinkOk =
      ⟨(createFifos fs₀ st.fifoNames).1, 1, (createFifos fs₀ st.fifoNames).2.1⟩ := by
  unfold splitMain
  simp only [hp]
  rcases hcf : createFifos fs₀ st.fifoNames with ⟨evs, fs₁, fatal⟩
  rw [hcf] at hc
  have hfatal : fatal = true := hc
  subst hfatal
  simp only [hcf]

theorem splitMain_ok (fs₀ : Fs) (args : List String) (lines : List (List Char))
    (openOk : String → Bool) (w : List Bool) (closeOk unlinkOk : String → Bool)
    (st : ArgState) (hp : parseArgs initArgs args = Except.ok st)
    (hc : (createFifos fs₀ st.fifoNames).2.2 = false)
    (ho : ∀ n ∈ st.fifoNames, openOk n = true) :
    splitMain fs₀ args lines openOk w closeOk unlinkOk =
      ⟨(createFifos fs₀ st.fifoNames).1 ++ st.fifoNames.map Ev.openF ++
         procLines st.fifoIndices lines w ++
         (cleanupFifos closeOk unlinkOk (createFifos fs₀ st.fifoNames).2.1
            st.fifoNames).1,
       0,
       (cleanupFifos closeOk unlinkOk (createFifos fs₀ st.fifoNames).2.1
          st.fifoNames).2⟩ := by
  unfold splitMain
  simp only [hp]
  rcases hcf : createFifos fs₀ st.fifoNames with ⟨evs, fs₁, fatal⟩
  rw [hcf] at hc
  have hfatal : fatal = false := hc
  subst hfatal
  simp only [hcf, openFifos_all_ok openOk st.fifoNames fs₁ ho]

/-- Claim C2: for every record whose first character is a digit in
'1'..'8' that the routing table binds to some target, exactly the record
with the leading channel digit stripped — and hence with its trailing
newline preserved, since `fgets` keeps the newline inside the record — is
written to that target (stdout or the bound fifo), and the same target is
flushed immediately after the write and before the next record is read (the
flush event precedes the recursive call that issues the next `readL`). -/
theorem split_route_assigned (tbl : List FifoIdx) (s : List Char)
    (ls : List (List Char)) (w : List Bool) (t : Target)
    (h1 : '1' ≤ headC s) (h8 : headC s ≤ '8')
    (ht : targetOf (tbl.getD (chIdx (headC s)) FifoIdx.no) = some t) :
    procLines tbl (s :: ls) w =
      Ev.readL s :: Ev.writeT t (s.drop 1) (w.headD true) :: Ev.flushT t ::
        procLines tbl ls (w.drop 1) := by
  have hc : ¬ (headC s < '1' ∨ '8' < headC s) :=
    not_or.mpr ⟨not_lt.mpr h1, not_lt.mpr h8⟩
  cases hidx : tbl.getD (chIdx (headC s)) FifoIdx.no with
  | no =>
    rw [hidx] at ht
    exact absurd ht (by simp [targetOf])
  | toStdout =>
    rw [hidx] at ht
    simp only [targetOf, Option.some.injEq] at ht
    subst ht
    have hp : procLine tbl s w =
        ([Ev.writeT Target.primary (s.drop 1) (w.headD true), Ev.flushT Target.primary],
         w.drop 1) := by
      unfold procLine
      rw [if_neg hc, hidx]
    rw [procLines_cons, hp]
    simp
  | toFifo i =>
    rw [hidx] at ht
    simp only [targetOf, Option.some.injEq] at ht
    subst ht
    have hp : procLine tbl s w =
        ([Ev.writeT (Target.fifo i) (s.drop 1) (w.headD true), Ev.flushT (Target.fifo i)],
         w.drop 1) := by
      unfold procLine
      rw [if_neg hc, hidx]
    rw [procLines_cons, hp]
    simp

theorem split_route_assigned_witness :
    procLines [FifoIdx.toStdout, FifoIdx.no, FifoIdx.no, FifoIdx.no, FifoIdx.no,
               FifoIdx.no, FifoIdx.no, FifoIdx.no] [['1', 'x', '\n']] [] =
      Ev.readL ['1', 'x', '\n'] :: Ev.writeT Target.primary ['x', '\n'] true ::
        Ev.flushT Target.primary ::
        procLines [FifoIdx.toStdout, FifoIdx.no, FifoIdx.no, FifoIdx.no, FifoIdx.no,
                   FifoIdx.no, FifoIdx.no, FifoIdx.no] [] [] :=
  split_route_assigned _ _ _ _ _ (by decide) (by decide) (by decide)

/-- Claim C4: a record whose first character is not a digit in '1'..'8'
produces exactly one diagnostic and no write or flush on any target, and
the loop continues with the remaining records; a record whose first
character is a digit in '1'..'8' with no assigned target produces no event
at all — no output on any target and no diagnostic — and the loop likewise
continues. -/
theorem split_tolerated_lines :
    (∀ (tbl : List FifoIdx) (s : List Char) (ls : List (List Char)) (w : List Bool),
      (headC s < '1' ∨ '8' < headC s) →
      procLines tbl (s :: ls) w =
        Ev.readL s :: Ev.diag ("Wrong channel number in input: " ++ String.mk s) ::
          procLines tbl ls w) ∧
    (∀ (tbl : List FifoIdx) (s : List Char) (ls : List (List Char)) (w : List Bool),
      '1' ≤ headC s → headC s ≤ '8' →
      tbl.getD (chIdx (headC s)) FifoIdx.no = FifoIdx.no →
      procLines tbl (s :: ls) w = Ev.readL s :: procLines tbl ls w) := by
  constructor
  · intro tbl s ls w hbad
    have hp : procLine tbl s w =
        ([Ev.diag ("Wrong channel number in input: " ++ String.mk s)], w) := by
      unfold procLine
      rw [if_pos hbad]
    rw [procLines_cons, hp]
    simp
  · intro tbl s ls w h1 h8 hno
    have hc : ¬ (headC s < '1' ∨ '8' < headC s) :=
      not_or.mpr ⟨not_lt.mpr h1, not_lt.mpr h8⟩
    have hp : procLine tbl s w = ([], w) := by
      unfold procLine
      rw [if_neg hc, hno]
    rw [procLines_cons, hp]
    simp

theorem split_tolerated_lines_witness :
    procLines (List.replicate 8 FifoIdx.no) [['9', 'x', '\n']] [] =
      Ev.readL ['9', 'x', '\n'] ::
        Ev.diag ("Wrong channel number in input: " ++ String.mk ['9', 'x', '\n']) ::
        procLines (List.replicate 8 FifoIdx.no) [] [] ∧
    procLines (List.replicate 8 FifoIdx.no) [['3', 'y', '\n']] [] =
      Ev.readL ['3', 'y', '\n'] :: procLines (List.replicate 8 FifoIdx.no) [] [] :=
  ⟨split_tolerated_lines.1 _ _ _ _ (by decide),
   split_tolerated_lines.2 _ _ _ _ (by decide) (by decide) (by decide)⟩

/-- Claim C5 (counterexample): a complete run in which the first `fputs` to
the bound fifo fails (third-from-last oracle entry `false`): the loop
nevertheless reads and writes the second record, the cleanup runs exactly
as on success, and the exit status is 0.  The code never examines the
result of `fputs`/`fflush` (`nmea_split.c` lines 230-237), so a failed
write is neither reported nor fatal nor does it stop the loop, refuting
the claim at this concrete input. -/
theorem split_write_failure_cex :
    splitMain [] ["-f", "1", "fa"] [['1', 'a', '\n'], ['1', 'b', '\n']]
        (fun _ => true) [false, true] (fun _ => true) (fun _ => true) =
      ⟨[Ev.mkfifoF "fa" 438, Ev.openF "fa",
        Ev.readL ['1', 'a', '\n'], Ev.writeT (Target.fifo 0) ['a', '\n'] false,
        Ev.flushT (Target.fifo 0),
        Ev.readL ['1', 'b', '\n'], Ev.writeT (Target.fifo 0) ['b', '\n'] true,
        Ev.flushT (Target.fifo 0), Ev.closeF "fa", Ev.unlinkF "fa"], 0, []⟩ := by
  rfl

/-- Claim C5 (amended): the splitter does not detect write failures at all:
the results of `fputs` and `fflush` are discarded, so for every pattern of
write failures the processing loop still reads every input record and the
process still exits 0 after the normal cleanup.  (Termination on a broken
pipe, when it happens, is the default SIGPIPE disposition killing the
process — an OS-level effect outside the program logic, which performs no
report and no cleanup in response to a failed write.) -/
theorem split_write_failure_amended (fs : Fs) (args : List String)
    (lines : List (List Char)) (w : List Bool)
    (openOk closeOk unlinkOk : String → Bool) (st : ArgState)
    (hp : parseArgs initArgs args = Except.ok st)
    (hc : (createFifos fs st.fifoNames).2.2 = false)
    (ho : ∀ n ∈ st.fifoNames, openOk n = true) :
    (splitMain fs args lines openOk w closeOk unlinkOk).exit = 0 ∧
    (splitMain fs args lines openOk w closeOk unlinkOk).trace.filter isRead =
      lines.map Ev.readL := by
  rw [splitMain_ok fs args lines openOk w closeOk unlinkOk st hp hc ho]
  refine ⟨rfl, ?_⟩
  simp [List.filter_append, createFifos_no_read, map_openF_no_read,
        procLines_filter_read, cleanupFifos_no_read]

theorem split_write_failure_amended_witness :
    (splitMain [] ["-f", "1", "fa"] [['1', 'a', '\n']] (fun _ => true) [false]
        (fun _ => true) (fun _ => true)).exit = 0 ∧
    (splitMain [] ["-f", "1", "fa"] [['1', 'a', '\n']] (fun _ => true) [false]
        (fun _ => true) (fun _ => true)).trace.filter isRead =
      [['1', 'a', '\n']].map Ev.readL :=
  split_write_failure_amended _ _ _ _ _ _ _
    ⟨[FifoIdx.toFifo 0, FifoIdx.no, FifoIdx.no, FifoIdx.no, FifoIdx.no, FifoIdx.no,
      FifoIdx.no, FifoIdx.no], ["fa"], true⟩ (by rfl) (by rfl) (by decide)

/-- Claim C6: for a declared fifo path checked before any input is read,
(i) an existing non-pipe entry makes the run fail fatally with the entry
neither unlinked nor overwritten (control falls through to `mkfifo`, which
fails with EEXIST); (ii) an existing pipe is first unlinked and a fresh
pipe is created with permissive mode 0666 (438); (iii) whenever the
creation phase is fatal the whole run reads no input and exits 1. -/
theorem split_fifo_creation :
    (∀ (fs : Fs) (n : String), fsGet fs n = some FsType.other →
      createOne fs n = ([Ev.diag ("Error creating fifo file: " ++ n)], fs, true)) ∧
    (∀ (fs : Fs) (n : String), fsGet fs n = some FsType.fifo →
      createOne fs n = ([Ev.unlinkF n, Ev.mkfifoF n 438],
                        (n, FsType.fifo) :: fsRemove fs n, false)) ∧
    (∀ (fs : Fs) (args : List String) (lines : List (List Char))
       (openOk : String → Bool) (w : List Bool) (closeOk unlinkOk : String → Bool)
       (st : ArgState), parseArgs initArgs args = Except.ok st →
      (createFifos fs st.fifoNames).2.2 = true →
      (splitMain fs args lines openOk w closeOk unlinkOk).trace.filter isRead = [] ∧
      (splitMain fs args lines openOk w closeOk unlinkOk).exit = 1) := by
  refine ⟨?_, ?_, ?_⟩
  · intro fs n h
    unfold createOne
    rw [h]
  · intro fs n h
    unfold createOne
    rw [h]
  · intro fs args lines openOk w closeOk unlinkOk st hp hc
    rw [splitMain_create_fatal fs args lines openOk w closeOk unlinkOk st hp hc]
    exact ⟨createFifos_no_read st.fifoNames fs, rfl⟩

theorem split_fifo_creation_witness :
    createOne [("x", FsType.other)] "x" =
      ([Ev.diag ("Error creating fifo file: " ++ "x")], [("x", FsType.other)], true) ∧
    createOne [("y", FsType.fifo)] "y" =
      ([Ev.unlinkF "y", Ev.mkfifoF "y" 438],
       ("y", FsType.fifo) :: fsRemove [("y", FsType.fifo)] "y", false) ∧
    ((splitMain [("fa", FsType.other)] ["-f", "1", "fa"] [['1', 'a', '\n']]
        (fun _ => true) [] (fun _ => true) (fun _ => true)).trace.filter isRead = [] ∧
     (splitMain [("fa", FsType.other)] ["-f", "1", "fa"] [['1', 'a', '\n']]
        (fun _ => true) [] (fun _ => true) (fun _ => true)).exit = 1) :=
  ⟨split_fifo_creation.1 _ "x" (by decide),
   split_fifo_creation.2.1 _ "y" (by decide),
   split_fifo_creation.2.2 _ _ _ _ _ _ _
     ⟨[FifoIdx.toFifo 0, FifoIdx.no, FifoIdx.no, FifoIdx.no, FifoIdx.no, FifoIdx.no,
       FifoIdx.no, FifoIdx.no], ["fa"], true⟩ (by rfl) (by rfl)⟩

/-- Claim C7 (counterexample): two declared fifos, the second of which
fails to open.  Both pipes were created (`mkfifoF "fa"`, `mkfifoF "fb"`),
the run exits 1 via a fatal error path after pipe creation, yet only the
failing pipe "fb" is unlinked: the trace contains no `closeF "fa"` and no
`unlinkF "fa"`, and "fa" is still a pipe in the final filesystem — so not
every pipe created by this run is closed and unlinked on this shutdown
path. -/
theorem split_cleanup_leak_cex :
    splitMain [] ["-f", "1", "fa", "-f", "2", "fb"] [] (fun n => n == "fa") []
        (fun _ => true) (fun _ => true) =
      ⟨[Ev.mkfifoF "fa" 438, Ev.mkfifoF "fb" 438, Ev.openF "fa",
        Ev.diag "Error opening fifo: fb", Ev.unlinkF "fb"], 1,
       [("fa", FsType.fifo)]⟩ := by
  rfl

/-- Claim C7 (amended): on the normal end-of-input shutdown path every pipe
created by the run is closed, and — when the close succeeded, since `||`
short-circuits past `unlink` otherwise — unlinked; a cleanup failure is
reported ("Error closing fifo") and does not change the already-determined
exit status, which remains 0 whatever the close and unlink oracles say.
On the fatal open-failure path, however, only the pipe whose open failed is
unlinked; pipes created earlier are neither closed nor unlinked (see the
counterexample). -/
theorem split_cleanup_amended (fs : Fs) (args : List String)
    (lines : List (List Char)) (w : List Bool)
    (openOk closeOk unlinkOk : String → Bool) (st : ArgState)
    (hp : parseArgs initArgs args = Except.ok st)
    (hc : (createFifos fs st.fifoNames).2.2 = false)
    (ho : ∀ n ∈ st.fifoNames, openOk n = true) :
    (splitMain fs args lines openOk w closeOk unlinkOk).exit = 0 ∧
    ∀ n ∈ st.fifoNames,
      Ev.closeF n ∈ (splitMain fs args lines openOk w closeOk unlinkOk).trace ∧
      (closeOk n = true →
        Ev.unlinkF n ∈ (splitMain fs args lines openOk w closeOk unlinkOk).trace) ∧
      (closeOk n = false →
        Ev.diag ("Error closing fifo: " ++ n) ∈
          (splitMain fs args lines openOk w closeOk unlinkOk).trace) := by
  rw [splitMain_ok fs args lines openOk w closeOk unlinkOk st hp hc ho]
  refine ⟨rfl, ?_⟩
  intro n hn
  obtain ⟨h1, h2, h3⟩ := cleanupFifos_mem closeOk unlinkOk st.fifoNames
      (createFifos fs st.fifoNames).2.1 n hn
  exact ⟨List.mem_append_right _ h1,
         fun hcl => List.mem_append_right _ (h2 hcl),
         fun hcl => List.mem_append_right _ (h3 hcl)⟩

theorem split_cleanup_amended_witness :
    (splitMain [] ["-f", "1", "fa"] [] (fun _ => true) [] (fun _ => false)
        (fun _ => true)).exit = 0 ∧
    ∀ n ∈ (["fa"] : List String),
      Ev.closeF n ∈ (splitMain [] ["-f", "1", "fa"] [] (fun _ => true) []
          (fun _ => false) (fun _ => true)).trace ∧
      (false = true →
        Ev.unlinkF n ∈ (splitMain [] ["-f", "1", "fa"] [] (fun _ => true) []
            (fun _ => false) (fun _ => true)).trace) ∧
      (false = false →
        Ev.diag ("Error closing fifo: " ++ n) ∈
          (splitMain [] ["-f", "1", "fa"] [] (fun _ => true) []
              (fun _ => false) (fun _ => true)).trace) :=
  split_cleanup_amended _ _ _ _ _ _ _
    ⟨[FifoIdx.toFifo 0, FifoIdx.no, FifoIdx.no, FifoIdx.no, FifoIdx.no, FifoIdx.no,
      FifoIdx.no, FifoIdx.no], ["fa"], true⟩ (by rfl) (by rfl) (by decide)

/-- Claim C8 (counterexample): the command line
`-f "" - -f 1 -` contains two `-f` specifications whose target argument is
`-` (the primary output stream), yet parsing succeeds — it is not rejected.
The duplicate-stdout check scans the channel table for an entry already
bound to stdout, and the first specification, having an empty channels
string, left no such entry. -/
theorem split_stdout_dup_cex :
    parseArgs initArgs ["-f", "", "-", "-f", "1", "-"] =
      Except.ok ⟨[FifoIdx.toStdout, FifoIdx.no, FifoIdx.no, FifoIdx.no, FifoIdx.no,
                  FifoIdx.no, FifoIdx.no, FifoIdx.no], [], true⟩ := by
  rfl

/-- Claim C8 (amended): a second `-f` specification targeting the primary
output stream is rejected with the fatal configuration error "stdout given
as output twice." provided some earlier specification actually bound a
channel to stdout (the check scans the channel table, so an earlier `-`
specification with an empty channels string goes undetected); and any
parse error aborts the run with exit 1 and the error diagnostic as the
entire trace, before any pipe is created. -/
theorem split_stdout_dup_amended :
    (∀ (st : ArgState) (chans : String) (rest : List String),
      st.fifoIndices.contains FifoIdx.toStdout = true →
      parseArgs st ("-f" :: chans :: "-" :: rest) =
        Except.error "stdout given as output twice.") ∧
    (∀ (fs : Fs) (args : List String) (lines : List (List Char))
       (openOk : String → Bool) (w : List Bool) (closeOk unlinkOk : String → Bool)
       (e : String), parseArgs initArgs args = Except.error e →
      splitMain fs args lines openOk w closeOk unlinkOk = ⟨[Ev.diag e], 1, fs⟩) := by
  constructor
  · intro st chans rest h
    unfold parseArgs
    rw [if_neg (by decide : ¬ ("-f" : String) = "-h"), if_pos rfl]
    dsimp only
    rw [if_pos ⟨rfl, h⟩]
  · intro fs args lines openOk w closeOk unlinkOk e hp
    exact splitMain_parse_error fs args lines openOk w closeOk unlinkOk e hp

theorem split_stdout_dup_amended_witness :
    parseArgs ⟨[FifoIdx.toStdout, FifoIdx.no, FifoIdx.no, FifoIdx.no, FifoIdx.no,
                FifoIdx.no, FifoIdx.no, FifoIdx.no], [], true⟩ ("-f" :: "1" :: "-" :: []) =
      Except.error "stdout given as output twice." ∧
    splitMain [] ["-z"] [] (fun _ => true) [] (fun _ => true) (fun _ => true) =
      ⟨[Ev.diag "Unknown option: -z"], 1, []⟩ :=
  ⟨split_stdout_dup_amended.1 _ "1" [] (by decide),
   split_stdout_dup_amended.2 _ _ _ _ _ _ _ "Unknown option: -z" (by rfl)⟩

/-- Claim C9 (counterexample): the empty channels argument in `-f "" -` is
accepted — parsing succeeds and assigns nothing — although the claim
requires every channels argument to be a non-empty string of digits and an
empty one to be a configuration error. -/
theorem split_chan_grammar_cex :
    parseArgs initArgs ["-f", "", "-"] =
      Except.ok ⟨List.replicate 8 FifoIdx.no, [], true⟩ := by
  rfl

/-- Claim C9 (amended): every `-f` channels argument must be a possibly
empty string of distinct digits '1'..'8': whenever parsing a `-f`
specification succeeds, every character of its channels argument is a
digit in '1'..'8' and no character repeats (a violation is a configuration
error exiting via usage); an empty channels argument, however, is accepted
and assigns no channels.  Any parse error aborts the run with exit 1 and
the error diagnostic as the entire trace, before any pipe is created. -/
theorem split_chan_grammar_amended :
    (∀ (st : ArgState) (chans tgt : String) (rest : List String) (st' : ArgState),
      st.fifoIndices.length = 8 →
      parseArgs st ("-f" :: chans :: tgt :: rest) = Except.ok st' →
      (∀ c ∈ chans.toList, '1' ≤ c ∧ c ≤ '8') ∧ chans.toList.Nodup) ∧
    (∀ (fs : Fs) (args : List String) (lines : List (List Char))
       (openOk : String → Bool) (w : List Bool) (closeOk unlinkOk : String → Bool)
       (e : String), parseArgs initArgs args = Except.error e →
      splitMain fs args lines openOk w closeOk unlinkOk = ⟨[Ev.diag e], 1, fs⟩) := by
  constructor
  · intro st chans tgt rest st' hlen hok
    unfold parseArgs at hok
    rw [if_neg (by decide : ¬ ("-f" : String) = "-h"), if_pos rfl] at hok
    dsimp only at hok
    split at hok
    · exact Except.noConfusion hok
    · split at hok
      · exact Except.noConfusion hok
      · next st₂ heq =>
        have hne : (if tgt ≠ "-" then FifoIdx.toFifo st.fifoNames.length
            else FifoIdx.toStdout) ≠ FifoIdx.no := by
          split <;> simp
        exact assignChans_ok hne chans.toList st st₂ hlen heq
  · intro fs args lines openOk w closeOk unlinkOk e hp
    exact splitMain_parse_error fs args lines openOk w closeOk unlinkOk e hp

theorem split_chan_grammar_amended_witness :
    ((∀ c ∈ ("12" : String).toList, '1' ≤ c ∧ c ≤ '8') ∧ ("12" : String).toList.Nodup) ∧
    splitMain [] ["-f", "9", "-"] [] (fun _ => true) [] (fun _ => true) (fun _ => true) =
      ⟨[Ev.diag ("Wrong channel number: " ++ '9'.toString)], 1, []⟩ :=
  ⟨split_chan_grammar_amended.1 initArgs "12" "-" []
     ⟨[FifoIdx.toStdout, FifoIdx.toStdout, FifoIdx.no, FifoIdx.no, FifoIdx.no,
       FifoIdx.no, FifoIdx.no, FifoIdx.no], [], true⟩ (by decide) (by rfl),
   split_chan_grammar_amended.2 _ _ _ _ _ _ _ _ (by rfl)⟩

end NmeaSplit

namespace NmeaConfig

theorem parseC_keeps_default :
    ∀ (N : Nat) (args : List String) (st st' : CState), args.length ≤ N →
      st.inputName = some "/dev/ttyAMA0" →
      parseC st args = Except.ok st' → st'.inputName = some "/dev/ttyAMA0" := by
  intro N
  induction N with
  | zero =>
    intro args st st' hlen hin h
    match args with
    | [] =>
      unfold parseC at h
      injection h with h₂
      rw [← h₂]
      exact hin
    | a :: rest => simp at hlen
  | succ N ih =>
    intro args st st' hlen hin h
    match args with
    | [] =>
      unfold parseC at h
      injection h with h₂
      rw [← h₂]
      exact hin
    | a :: rest =>
      unfold parseC at h
      by_cases hh : a = "-h"
      · rw [if_pos hh] at h
        exact Except.noConfusion h
      rw [if_neg hh] at h
      by_cases hb : a = "-b"
      · rw [if_pos hb] at h
        by_cases hb2 : st.baud ≠ -1
        · rw [if_pos hb2] at h
          exact Except.noConfusion h
        rw [if_neg hb2] at h
        cases rest with
        | nil => exact Except.noConfusion h
        | cons v rest₂ =>
          dsimp only at h
          cases hpi : parseIntArg v.toList with
          | none =>
            simp only [hpi] at h
            exact Except.noConfusion h
          | some b =>
            simp only [hpi] at h
            by_cases hr : b ≠ 4800 ∧ b ≠ 38400 ∧ b ≠ 115200
            · rw [if_pos hr] at h
              exact Except.noConfusion h
            · rw [if_neg hr] at h
              refine ih rest₂ { st with baud := b } st' ?_ hin h
              simp at hlen
              omega
      rw [if_neg hb] at h
      by_cases hi : a = "-i"
      · rw [if_pos hi] at h
        rw [if_pos (by simp [hin])] at h
        exact Except.noConfusion h
      rw [if_neg hi] at h
      by_cases hg : a = "-g"
      · rw [if_pos hg] at h
        by_cases hg2 : st.gpio ≠ -2
        · rw [if_pos hg2] at h
          exact Except.noConfusion h
        rw [if_neg hg2] at h
        cases rest with
        | nil => exact Except.noConfusion h
        | cons v rest₂ =>
          dsimp only at h
          by_cases hv : v = "-"
          · rw [if_pos hv] at h
            refine ih rest₂ { st with gpio := -1 } st' ?_ hin h
            simp at hlen
            omega
          rw [if_neg hv] at h
          cases hpi : parseIntArg v.toList with
          | none =>
            simp only [hpi] at h
            exact Except.noConfusion h
          | some g =>
            simp only [hpi] at h
            by_cases hgr : g < 0
            · rw [if_pos hgr] at h
              exact Except.noConfusion h
            · rw [if_neg hgr] at h
              refine ih rest₂ { st with gpio := g } st' ?_ hin h
              simp at hlen
              omega
      rw [if_neg hg] at h
      exact Except.noConfusion h

/-- Claim C10: whenever the configuration tool's argument loop reaches a
`-i` option with the device name set — which it always is, because
`input_name` is pre-assigned "/dev/ttyAMA0" before parsing and nothing can
unset it — the tool errors with the diagnostic "Input device given twice"
and exits via the usage path, even for a first `-i`; consequently every
parse that succeeds leaves the device at the default "/dev/ttyAMA0", so no
other device can ever be selected. -/
theorem config_rejects_input_device :
    (∀ (st : CState) (rest : List String), st.inputName.isSome = true →
      parseC st ("-i" :: rest) = Except.error "Input device given twice") ∧
    (∀ (args : List String) (st' : CState), parseC cInit args = Except.ok st' →
      st'.inputName = some "/dev/ttyAMA0") := by
  constructor
  · intro st rest hs
    unfold parseC
    rw [if_neg (by decide : ¬ ("-i" : String) = "-h"),
        if_neg (by decide : ¬ ("-i" : String) = "-b"), if_pos rfl,
        if_pos (Option.isSome_iff_ne_none.mp hs)]
  · intro args st' h
    exact parseC_keeps_default args.length args cInit st' (le_refl _) rfl h

theorem config_rejects_input_device_witness :
    parseC cInit ["-i", "/dev/ttyUSB0"] = Except.error "Input device given twice" ∧
    CState.inputName ⟨4800, -2, some "/dev/ttyAMA0"⟩ = some "/dev/ttyAMA0" :=
  ⟨config_rejects_input_device.1 cInit ["/dev/ttyUSB0"] (by decide),
   config_rejects_input_device.2 ["-b", "4800"] ⟨4800, -2, some "/dev/ttyAMA0"⟩ (by rfl)⟩

end NmeaConfig
